import Mathlib

/-!
Shallow embedding of the earthquake visualizer core logic
(src/pages/Index.tsx and src/components/EarthquakeStats.tsx).

Numbers that the TypeScript source manipulates (magnitudes, coordinates,
screen percentages) are embedded as rationals `ℚ`; every comparison the
source performs on them is exact, so the embedding is faithful on the
inputs the claims quantify over.  Event timestamps (`properties.time`,
milliseconds since the epoch) are embedded as `Int`.  The two IEEE
sentinels the source can produce on an empty collection are embedded
explicitly: `Math.max()` with no arguments (`-Infinity`) becomes `⊥` of
`WithBot ℚ`, and the `0 / 0` (`NaN`) of the empty mean becomes `none` of
`Option ℚ`.
-/

/-- Geometry of one GeoJSON feature: `coordinates: [lon, lat, depthKm]`. -/
structure Geometry where
  coordinates : ℚ × ℚ × ℚ
deriving DecidableEq

/-- Per-event `properties` record of the `EarthquakeData` interface. -/
structure EqProperties where
  mag : ℚ
  place : String
  time : Int
  url : String
  title : String
  eventType : String
  depth : ℚ
deriving DecidableEq

/-- One seismic event, the `EarthquakeData` interface of the source. -/
structure EarthquakeData where
  id : String
  geometry : Geometry
  properties : EqProperties
deriving DecidableEq

/-- Parsed JSON body of the feed response (`EarthquakeResponse`); the
`features` field may be absent, which we embed as `none`. -/
structure EarthquakeResponse where
  features : Option (List EarthquakeData)
deriving DecidableEq

/-- HTTP response as the fetch handlers observe it: the `ok` flag, the
numeric `status`, and the parsed JSON body. -/
structure Response where
  ok : Bool
  status : Nat
  body : EarthquakeResponse
deriving DecidableEq

/-- Feed ingestion (`fetchEarthquakes` in both components): on `!response.ok`
it throws `HTTP error! status: ${response.status}` — embedded as
`Except.error` carrying the status — and on success it parses the body and
substitutes `[]` for an absent `features` field (`data.features || []`). -/
def fetchEarthquakes (resp : Response) : Except Nat (List EarthquakeData) :=
  if resp.ok then Except.ok (resp.body.features.getD []) else Except.error resp.status

/-- State update performed around `fetchEarthquakes`: `setEarthquakes` runs
only on the success path; the `catch` branch leaves the stored collection at
its prior value. -/
def applyFetch (prior : List EarthquakeData) (resp : Response) : List EarthquakeData :=
  match fetchEarthquakes resp with
  | Except.ok evs => evs
  | Except.error _ => prior

/-- Marker color (`getMagnitudeColor` in EarthquakeMap). -/
def getMagnitudeColor (magnitude : ℚ) : String :=
  if magnitude < 1 then "hsl(var(--magnitude-minor))"
  else if magnitude < 2 then "hsl(var(--magnitude-light))"
  else if magnitude < 3 then "hsl(var(--magnitude-moderate))"
  else if magnitude < 4 then "hsl(var(--magnitude-strong))"
  else if magnitude < 5 then "hsl(var(--magnitude-major))"
  else "hsl(var(--magnitude-great))"

/-- Marker size (`getMagnitudeSize`): `Math.max(8, magnitude * 4)`. -/
def getMagnitudeSize (magnitude : ℚ) : ℚ :=
  max 8 (magnitude * 4)

/-- Band label (`getMagnitudeLabel` in EarthquakeMap). -/
def getMagnitudeLabel (magnitude : ℚ) : String :=
  if magnitude < 1 then "Micro"
  else if magnitude < 2 then "Minor"
  else if magnitude < 3 then "Light"
  else if magnitude < 4 then "Moderate"
  else if magnitude < 5 then "Strong"
  else if magnitude < 6 then "Major"
  else "Great"

/-- Equirectangular projection (`latLngToScreen`): percentages clamped into
the viewport by `Math.max(0, Math.min(100, ·))`. -/
def latLngToScreen (lat lng : ℚ) : ℚ × ℚ :=
  let x := ((lng + 180) / 360) * 100
  let y := ((90 - lat) / 180) * 100
  (max 0 (min 100 x), max 0 (min 100 y))

/-- One row of the legend rendered by EarthquakeMap. -/
structure LegendEntry where
  range : String
  color : String
  label : String
deriving DecidableEq

/-- Legend table of EarthquakeMap, verbatim from the source. -/
def legend : List LegendEntry :=
  [⟨"6.0+", "hsl(var(--magnitude-great))", "Great"⟩,
   ⟨"5.0-5.9", "hsl(var(--magnitude-major))", "Major"⟩,
   ⟨"4.0-4.9", "hsl(var(--magnitude-strong))", "Strong"⟩,
   ⟨"3.0-3.9", "hsl(var(--magnitude-moderate))", "Moderate"⟩,
   ⟨"2.0-2.9", "hsl(var(--magnitude-light))", "Light"⟩,
   ⟨"<2.0", "hsl(var(--magnitude-minor))", "Minor"⟩]

/-- Fixture constructor for concrete test events: only the fields a given
claim reads are nonzero. -/
def mkEvent (mag : ℚ) (time : Int) : EarthquakeData :=
  ⟨"", ⟨(0, 0, 0)⟩, ⟨mag, "", time, "", "", "", 0⟩⟩

/-- C3: on a non-success HTTP status the fetch fails with an error carrying
that status, and the stored collection keeps its prior value. -/
theorem claim_C3_fetch_error_preserves_state
    (prior : List EarthquakeData) (resp : Response) (h : resp.ok = false) :
    fetchEarthquakes resp = Except.error resp.status ∧ applyFetch prior resp = prior := by
  constructor
  · simp [fetchEarthquakes, h]
  · simp [applyFetch, fetchEarthquakes, h]

/-- C3 witness: a status-500 response with one prior event stored. -/
theorem claim_C3_witness :
    fetchEarthquakes ⟨false, 500, ⟨none⟩⟩ = Except.error 500 ∧
      applyFetch [mkEvent 1 0] ⟨false, 500, ⟨none⟩⟩ = [mkEvent 1 0] :=
  claim_C3_fetch_error_preserves_state [mkEvent 1 0] ⟨false, 500, ⟨none⟩⟩ rfl

/-- C7: a successful response whose body lacks the `features` field yields
the empty collection rather than a failure. -/
theorem claim_C7_missing_features_empty
    (resp : Response) (hok : resp.ok = true) (hf : resp.body.features = none) :
    fetchEarthquakes resp = Except.ok [] := by
  simp [fetchEarthquakes, hok, hf]

/-- C7 witness: a 200 response with body `\x7b\x7d`. -/
theorem claim_C7_witness : fetchEarthquakes ⟨true, 200, ⟨none⟩⟩ = Except.ok [] :=
  claim_C7_missing_features_empty ⟨true, 200, ⟨none⟩⟩ rfl rfl

/-- C6: the projection always lands in the `[0, 100]` square, and the three
anchor points map as specified. -/
theorem claim_C6_projection_bounds :
    (∀ lat lng : ℚ,
        0 ≤ (latLngToScreen lat lng).1 ∧ (latLngToScreen lat lng).1 ≤ 100 ∧
        0 ≤ (latLngToScreen lat lng).2 ∧ (latLngToScreen lat lng).2 ≤ 100) ∧
    latLngToScreen 90 (-180) = (0, 0) ∧
    latLngToScreen (-90) 180 = (100, 100) ∧
    latLngToScreen 0 0 = (50, 50) := by
  refine ⟨fun lat lng => ?_, by norm_num [latLngToScreen], by norm_num [latLngToScreen],
    by norm_num [latLngToScreen]⟩
  refine ⟨le_max_left 0 _, max_le (by norm_num) (min_le_left _ _), le_max_left 0 _,
    max_le (by norm_num) (min_le_left _ _)⟩

/-- Seven magnitude buckets of `getStatsByMagnitude` in EarthquakeStats. -/
structure MagnitudeStats where
  micro : Nat
  minor : Nat
  light : Nat
  moderate : Nat
  strong : Nat
  major : Nat
  great : Nat
deriving DecidableEq

/-- Body of the `forEach` loop of `getStatsByMagnitude`: the if/else-if
chain increments exactly one bucket per event. -/
def statsStep (s : MagnitudeStats) (eq : EarthquakeData) : MagnitudeStats :=
  if eq.properties.mag < 1 then { s with micro := s.micro + 1 }
  else if eq.properties.mag < 2 then { s with minor := s.minor + 1 }
  else if eq.properties.mag < 3 then { s with light := s.light + 1 }
  else if eq.properties.mag < 4 then { s with moderate := s.moderate + 1 }
  else if eq.properties.mag < 5 then { s with strong := s.strong + 1 }
  else if eq.properties.mag < 6 then { s with major := s.major + 1 }
  else { s with great := s.great + 1 }

/-- Per-band statistics (`getStatsByMagnitude`): fold of `statsStep` over
the collection starting from all-zero buckets. -/
def getStatsByMagnitude (earthquakes : List EarthquakeData) : MagnitudeStats :=
  earthquakes.foldl statsStep ⟨0, 0, 0, 0, 0, 0, 0⟩

/-- Sum of the seven bucket counts of a `MagnitudeStats`. -/
def statsTotal (s : MagnitudeStats) : Nat :=
  s.micro + s.minor + s.light + s.moderate + s.strong + s.major + s.great

lemma statsTotal_statsStep (s : MagnitudeStats) (eq : EarthquakeData) :
    statsTotal (statsStep s eq) = statsTotal s + 1 := by
  unfold statsStep statsTotal
  split_ifs <;> simp <;> omega

lemma statsTotal_foldl (l : List EarthquakeData) :
    ∀ s : MagnitudeStats, statsTotal (l.foldl statsStep s) = statsTotal s + l.length := by
  induction l with
  | nil => intro s; simp
  | cons e t ih =>
      intro s
      simp only [List.foldl_cons, ih (statsStep s e), statsTotal_statsStep, List.length_cons]
      omega

/-- C5: every event lands in exactly one bucket, so the seven per-band
counts sum to the collection's length. -/
theorem claim_C5_band_counts_total (earthquakes : List EarthquakeData) :
    statsTotal (getStatsByMagnitude earthquakes) = earthquakes.length := by
  unfold getStatsByMagnitude
  rw [statsTotal_foldl]
  simp [statsTotal]

/-- C2: the label function classifies with strict less-than thresholds at
1, 2, 3, 4, 5, 6 — `1.999` is Minor, `2.0` is Light, `5.999` is Major,
`6.0` is Great — always produces exactly one of the seven band labels, and
the stats bucketing increments a bucket exactly when the label function
assigns the corresponding band. -/
theorem claim_C2_classification_boundaries :
    getMagnitudeLabel (1999/1000) = "Minor" ∧
    getMagnitudeLabel 2 = "Light" ∧
    getMagnitudeLabel (5999/1000) = "Major" ∧
    getMagnitudeLabel 6 = "Great" ∧
    (∀ m : ℚ, getMagnitudeLabel m ∈
      ["Micro", "Minor", "Light", "Moderate", "Strong", "Major", "Great"]) ∧
    (∀ (s : MagnitudeStats) (eq : EarthquakeData),
      ((statsStep s eq).micro = s.micro + 1 ↔ getMagnitudeLabel eq.properties.mag = "Micro") ∧
      ((statsStep s eq).minor = s.minor + 1 ↔ getMagnitudeLabel eq.properties.mag = "Minor") ∧
      ((statsStep s eq).light = s.light + 1 ↔ getMagnitudeLabel eq.properties.mag = "Light") ∧
      ((statsStep s eq).moderate = s.moderate + 1 ↔
        getMagnitudeLabel eq.properties.mag = "Moderate") ∧
      ((statsStep s eq).strong = s.strong + 1 ↔ getMagnitudeLabel eq.properties.mag = "Strong") ∧
      ((statsStep s eq).major = s.major + 1 ↔ getMagnitudeLabel eq.properties.mag = "Major") ∧
      ((statsStep s eq).great = s.great + 1 ↔ getMagnitudeLabel eq.properties.mag = "Great")) := by
  refine ⟨by norm_num [getMagnitudeLabel], by norm_num [getMagnitudeLabel],
    by norm_num [getMagnitudeLabel], by norm_num [getMagnitudeLabel], ?_, ?_⟩
  · intro m
    unfold getMagnitudeLabel
    split_ifs <;> simp
  · intro s eq
    unfold statsStep getMagnitudeLabel
    split_ifs <;> simp

/-- C1: the claim that color and label always designate the same band is
false on the code. At magnitude `1.5` the label function answers `Minor`,
but the color function — whose if-chain lacks a micro branch and is shifted
one band down — answers the light band's color; the legend itself assigns
the minor color to the whole range below 2.0, and assigns the light color
to `2.0-2.9` while the color function paints magnitude `2.5` with the
moderate color. -/
theorem claim_C1_color_label_mismatch :
    getMagnitudeLabel (3/2) = "Minor" ∧
    getMagnitudeColor (3/2) = "hsl(var(--magnitude-light))" ∧
    legend.find? (fun en => en.label == "Minor") =
      some ⟨"<2.0", "hsl(var(--magnitude-minor))", "Minor"⟩ ∧
    getMagnitudeColor (3/2) ≠ "hsl(var(--magnitude-minor))" ∧
    legend.find? (fun en => en.range == "2.0-2.9") =
      some ⟨"2.0-2.9", "hsl(var(--magnitude-light))", "Light"⟩ ∧
    getMagnitudeColor (5/2) = "hsl(var(--magnitude-moderate))" := by
  refine ⟨by norm_num [getMagnitudeLabel], by norm_num [getMagnitudeColor], by decide, ?_,
    by decide, by norm_num [getMagnitudeColor]⟩
  have h : getMagnitudeColor (3/2) = "hsl(var(--magnitude-light))" := by
    norm_num [getMagnitudeColor]
  rw [h]
  decide

/-- Reducer of `getMostRecentEarthquake`: keep the accumulator unless the
current event is strictly more recent. -/
def mostRecentStep (latest current : EarthquakeData) : EarthquakeData :=
  if current.properties.time > latest.properties.time then current else latest

/-- Most recent event (`getMostRecentEarthquake`): `Array.prototype.reduce`
without an initial value, which throws on an empty array — embedded as
`none` — and otherwise folds `mostRecentStep` over the tail from the head. -/
def getMostRecentEarthquake : List EarthquakeData → Option EarthquakeData
  | [] => none
  | a :: t => some (t.foldl mostRecentStep a)

lemma time_le_foldl_mostRecent (t : List EarthquakeData) :
    ∀ a : EarthquakeData,
      a.properties.time ≤ (t.foldl mostRecentStep a).properties.time := by
  induction t with
  | nil => intro a; simp
  | cons b t ih =>
      intro a
      simp only [List.foldl_cons]
      refine le_trans ?_ (ih (mostRecentStep a b))
      unfold mostRecentStep
      split_ifs with h
      · exact le_of_lt h
      · exact le_refl _

lemma foldl_mostRecent_first_max (t : List EarthquakeData) :
    ∀ a : EarthquakeData, ∃ l₁ l₂,
      a :: t = l₁ ++ (t.foldl mostRecentStep a) :: l₂ ∧
      (∀ e ∈ l₁, e.properties.time < (t.foldl mostRecentStep a).properties.time) ∧
      (∀ e ∈ l₂, e.properties.time ≤ (t.foldl mostRecentStep a).properties.time) := by
  induction t with
  | nil =>
      intro a
      exact ⟨[], [], by simp, by simp, by simp⟩
  | cons b t ih =>
      intro a
      simp only [List.foldl_cons]
      by_cases hb : b.properties.time > a.properties.time
      · have hstep : mostRecentStep a b = b := by simp [mostRecentStep, hb]
        rw [hstep]
        obtain ⟨l₁, l₂, hdec, h₁, h₂⟩ := ih b
        refine ⟨a :: l₁, l₂, ?_, ?_, h₂⟩
        · rw [List.cons_append, ← hdec]
        · intro e he
          rcases List.mem_cons.mp he with rfl | he'
          · exact lt_of_lt_of_le hb (time_le_foldl_mostRecent t b)
          · exact h₁ e he'
      · have hstep : mostRecentStep a b = a := by simp [mostRecentStep, hb]
        rw [hstep]
        obtain ⟨l₁, l₂, hdec, h₁, h₂⟩ := ih a
        push_neg at hb
        cases l₁ with
        | nil =>
            simp only [List.nil_append] at hdec
            injection hdec with ha hl
            refine ⟨[], b :: t, by rw [List.nil_append, ← ha], by simp, ?_⟩
            intro e he
            rcases List.mem_cons.mp he with rfl | he'
            · rw [← ha]; exact hb
            · exact h₂ e (hl ▸ he')
        | cons c l₁' =>
            rw [List.cons_append] at hdec
            injection hdec with hac hterm
            have ha_lt : a.properties.time <
                (t.foldl mostRecentStep a).properties.time := by
              have hc := h₁ c (List.mem_cons_self c l₁')
              rwa [← hac] at hc
            refine ⟨a :: b :: l₁', l₂, ?_, ?_, h₂⟩
            · simp only [List.cons_append]
              conv_lhs => rw [hterm]
            · intro e he
              rcases List.mem_cons.mp he with rfl | he'
              · exact ha_lt
              · rcases List.mem_cons.mp he' with rfl | he''
                · exact lt_of_le_of_lt hb ha_lt
                · exact h₁ e (List.mem_cons_of_mem c he'')

/-- C4: on a non-empty collection the most-recent reduction returns an event
of the collection whose `time` is maximal, and it is the first such event in
left-to-right order: every event strictly before it has a strictly smaller
`time`, every event after it a smaller-or-equal one. -/
theorem claim_C4_most_recent_first_max (a : EarthquakeData) (t : List EarthquakeData) :
    ∃ r l₁ l₂,
      getMostRecentEarthquake (a :: t) = some r ∧
      a :: t = l₁ ++ r :: l₂ ∧
      (∀ e ∈ a :: t, e.properties.time ≤ r.properties.time) ∧
      (∀ e ∈ l₁, e.properties.time < r.properties.time) ∧
      (∀ e ∈ l₂, e.properties.time ≤ r.properties.time) := by
  obtain ⟨l₁, l₂, hdec, h₁, h₂⟩ := foldl_mostRecent_first_max t a
  refine ⟨t.foldl mostRecentStep a, l₁, l₂, rfl, hdec, ?_, h₁, h₂⟩
  intro e he
  rw [hdec] at he
  rcases List.mem_append.mp he with h | h
  · exact le_of_lt (h₁ e h)
  · rcases List.mem_cons.mp h with rfl | h'
    · exact le_refl _
    · exact h₂ e h'

/-- Maximum magnitude (`getMaxMagnitude`):
`Math.max(...earthquakes.map(eq => eq.properties.mag))`.  The spread over
`Math.max` is a fold of the binary maximum starting from `Math.max()`'s
result `-Infinity`, embedded as `⊥` of `WithBot ℚ`. -/
def getMaxMagnitude (earthquakes : List EarthquakeData) : WithBot ℚ :=
  (earthquakes.map (fun eq => eq.properties.mag)).foldl
    (fun (acc : WithBot ℚ) (m : ℚ) => max acc (m : WithBot ℚ)) ⊥

/-- Mean magnitude (`getAverageMagnitude`): `reduce`-sum divided by the
length.  On the empty collection the source computes `0 / 0 = NaN`, which the
rational embedding represents as `none`; every non-empty collection divides
by a nonzero length and yields `some` of the exact quotient. -/
def getAverageMagnitude (earthquakes : List EarthquakeData) : Option ℚ :=
  if earthquakes.length = 0 then none
  else some ((earthquakes.foldl (fun sum eq => sum + eq.properties.mag) 0) /
    (earthquakes.length : ℚ))

lemma foldl_max_coe (l : List ℚ) :
    ∀ a : ℚ, l.foldl (fun (acc : WithBot ℚ) (m : ℚ) => max acc (m : WithBot ℚ))
      (a : WithBot ℚ) = ((l.foldl max a : ℚ) : WithBot ℚ) := by
  induction l with
  | nil => intro a; simp
  | cons b t ih =>
      intro a
      simp only [List.foldl_cons, ← WithBot.coe_max, ih]

lemma foldl_max_mem_ub (l : List ℚ) :
    ∀ a : ℚ, (l.foldl max a = a ∨ l.foldl max a ∈ l) ∧
      a ≤ l.foldl max a ∧ ∀ x ∈ l, x ≤ l.foldl max a := by
  induction l with
  | nil => intro a; simp
  | cons b t ih =>
      intro a
      simp only [List.foldl_cons]
      obtain ⟨hmem, hle, hub⟩ := ih (max a b)
      refine ⟨?_, le_trans (le_max_left a b) hle, ?_⟩
      · rcases hmem with h | h
        · rcases max_choice a b with hab | hab
          · left; rw [h, hab]
          · right; rw [h, hab]; exact List.mem_cons_self b t
        · right; exact List.mem_cons_of_mem b h
      · intro x hx
        rcases List.mem_cons.mp hx with rfl | hx'
        · exact le_trans (le_max_right a x) hle
        · exact hub x hx'

/-- C8: on the empty collection the aggregates produce the sentinels
(`-Infinity` alias `⊥`, and `NaN` alias `none`); on any non-empty collection
the maximum is a magnitude present in the collection bounding all others,
the mean is the exact sum-over-count, and the spec's worked example with
magnitudes 2.5, 5.1, 1.0 gives max 5.1 and mean 43/15 ≈ 2.8667. -/
theorem claim_C8_aggregate_sentinels_and_values :
    getMaxMagnitude [] = ⊥ ∧
    getAverageMagnitude [] = none ∧
    (∀ (a : EarthquakeData) (t : List EarthquakeData), ∃ m : ℚ,
        getMaxMagnitude (a :: t) = (m : WithBot ℚ) ∧
        m ∈ (a :: t).map (fun eq => eq.properties.mag) ∧
        ∀ eq ∈ a :: t, eq.properties.mag ≤ m) ∧
    (∀ (a : EarthquakeData) (t : List EarthquakeData),
        getAverageMagnitude (a :: t) =
          some (((a :: t).foldl (fun sum eq => sum + eq.properties.mag) 0) /
            ((a :: t).length : ℚ))) ∧
    getMaxMagnitude [mkEvent (5/2) 100, mkEvent (51/10) 300, mkEvent 1 200] =
      ((51/10 : ℚ) : WithBot ℚ) ∧
    getAverageMagnitude [mkEvent (5/2) 100, mkEvent (51/10) 300, mkEvent 1 200] =
      some (43/15) := by
  refine ⟨rfl, rfl, ?_, ?_, ?_, ?_⟩
  · intro a t
    obtain ⟨hmem, hle, hub⟩ := foldl_max_mem_ub (t.map (fun eq => eq.properties.mag))
      a.properties.mag
    refine ⟨(t.map (fun eq => eq.properties.mag)).foldl max a.properties.mag, ?_, ?_, ?_⟩
    · unfold getMaxMagnitude
      simp only [List.map_cons, List.foldl_cons]
      rw [max_eq_right bot_le, foldl_max_coe]
    · simp only [List.map_cons, List.mem_cons]
      rcases hmem with h | h
      · left; exact h
      · right; exact h
    · intro eq heq
      rcases List.mem_cons.mp heq with rfl | heq'
      · exact hle
      · exact hub eq.properties.mag (List.mem_map_of_mem _ heq')
  · intro a t
    simp [getAverageMagnitude]
  · unfold getMaxMagnitude
    norm_num [mkEvent, ← WithBot.coe_max]
  · unfold getAverageMagnitude
    norm_num [mkEvent]

/-- Events observed by the EarthquakeMap effect after it has mounted: a tick
of the five-minute interval timer, or the teardown of the view. -/
inductive ViewEvent where
  | tick : ViewEvent
  | unmount : ViewEvent
deriving DecidableEq

/-- State of the mounted view: whether the interval is still registered, the
interval period, and how many times `fetchEarthquakes` has been invoked. -/
structure ViewState where
  timerActive : Bool
  intervalMs : Nat
  fetchCount : Nat
deriving DecidableEq

/-- Mounting the EarthquakeMap effect: the immediate `fetchEarthquakes()`
call followed by `setInterval(fetchEarthquakes, 5 * 60 * 1000)`. -/
def effectMount : ViewState :=
  ⟨true, 5 * 60 * 1000, 1⟩

/-- Transition of the effect's state: an interval tick re-invokes
`fetchEarthquakes` only while the interval is registered; teardown runs the
cleanup `clearInterval(interval)`. -/
def stepView (s : ViewState) : ViewEvent → ViewState
  | ViewEvent.tick => if s.timerActive then { s with fetchCount := s.fetchCount + 1 } else s
  | ViewEvent.unmount => { s with timerActive := false }

/-- Trace semantics of the effect: fold the transitions over the observed
events starting from the mounted state. -/
def runView (evs : List ViewEvent) : ViewState :=
  evs.foldl stepView effectMount

lemma stepView_inactive (s : ViewState) (h : s.timerActive = false) (ev : ViewEvent) :
    stepView s ev = s := by
  cases ev
  · simp [stepView, h]
  · cases s
    simp only [stepView]
    simp_all

lemma foldl_stepView_inactive (post : List ViewEvent) :
    ∀ s : ViewState, s.timerActive = false → post.foldl stepView s = s := by
  induction post with
  | nil => intro s _; rfl
  | cons ev t ih =>
      intro s h
      rw [List.foldl_cons, stepView_inactive s h ev]
      exact ih s h

/-- C9: the effect registers its refresh interval with the constant
`5 * 60 * 1000` milliseconds, and once the unmount cleanup has run, later
timer ticks never initiate another fetch: the fetch count of any trace is
unchanged by whatever follows the unmount. -/
theorem claim_C9_interval_and_teardown :
    effectMount.intervalMs = 5 * 60 * 1000 ∧
    ∀ pre post : List ViewEvent,
      (runView (pre ++ ViewEvent.unmount :: post)).fetchCount =
        (runView (pre ++ [ViewEvent.unmount])).fetchCount := by
  refine ⟨rfl, fun pre post => ?_⟩
  unfold runView
  rw [List.foldl_append, List.foldl_append, List.foldl_cons, List.foldl_cons, List.foldl_nil]
  rw [foldl_stepView_inactive post (stepView (pre.foldl stepView effectMount)
    ViewEvent.unmount) rfl]

/-- Values the EarthquakeStats component computes from its prop before
rendering. -/
structure StatsView where
  stats : MagnitudeStats
  maxMagnitude : WithBot ℚ
  avgMagnitude : Option ℚ
  mostRecent : Option EarthquakeData

/-- Body of the EarthquakeStats component: the four derived values computed
from the `earthquakes` prop. -/
def renderEarthquakeStats (earthquakes : List EarthquakeData) : StatsView :=
  ⟨getStatsByMagnitude earthquakes, getMaxMagnitude earthquakes,
   getAverageMagnitude earthquakes, getMostRecentEarthquake earthquakes⟩

/-- Statistics panel of the Index page: EarthquakeStats is rendered only
under the guard `!loading && earthquakes.length > 0`; otherwise the loading
card is shown, embedded as `none`. -/
def statsPanel (loading : Bool) (earthquakes : List EarthquakeData) : Option StatsView :=
  if loading = false ∧ 0 < earthquakes.length then some (renderEarthquakeStats earthquakes)
  else none

/-- C10: whenever the page actually renders the statistics panel, the
collection was non-empty, so the most-recent reduction — which on an empty
array would have no result — evaluates successfully. -/
theorem claim_C10_stats_rendered_only_nonempty
    (loading : Bool) (earthquakes : List EarthquakeData) (v : StatsView)
    (h : statsPanel loading earthquakes = some v) :
    earthquakes ≠ [] ∧ (getMostRecentEarthquake earthquakes).isSome = true ∧
      v.mostRecent.isSome = true := by
  unfold statsPanel at h
  split_ifs at h with hc
  · obtain ⟨hl, hlen⟩ := hc
    injection h with hv
    cases earthquakes with
    | nil => simp at hlen
    | cons a t =>
        refine ⟨by simp, rfl, ?_⟩
        rw [← hv]
        rfl

/-- C10 witness: with loading finished and one event stored, the panel is
rendered and the most-recent reduction has a value. -/
theorem claim_C10_witness :
    [mkEvent 1 0] ≠ [] ∧ (getMostRecentEarthquake [mkEvent 1 0]).isSome = true ∧
      (renderEarthquakeStats [mkEvent 1 0]).mostRecent.isSome = true :=
  claim_C10_stats_rendered_only_nonempty false [mkEvent 1 0]
    (renderEarthquakeStats [mkEvent 1 0]) (by simp [statsPanel])

/-- C2 witness: the label of magnitude 3.5 is one of the seven band labels. -/
theorem claim_C2_witness :
    getMagnitudeLabel (7/2) ∈
      ["Micro", "Minor", "Light", "Moderate", "Strong", "Major", "Great"] :=
  claim_C2_classification_boundaries.2.2.2.2.1 (7/2)

/-- C4 witness: the first-maximal decomposition on a concrete three-event
collection whose most recent event sits in the middle. -/
theorem claim_C4_witness :
    ∃ r l₁ l₂,
      getMostRecentEarthquake [mkEvent 1 100, mkEvent 2 300, mkEvent 3 200] = some r ∧
      [mkEvent 1 100, mkEvent 2 300, mkEvent 3 200] = l₁ ++ r :: l₂ ∧
      (∀ e ∈ [mkEvent 1 100, mkEvent 2 300, mkEvent 3 200],
        e.properties.time ≤ r.properties.time) ∧
      (∀ e ∈ l₁, e.properties.time < r.properties.time) ∧
      (∀ e ∈ l₂, e.properties.time ≤ r.properties.time) :=
  claim_C4_most_recent_first_max (mkEvent 1 100) [mkEvent 2 300, mkEvent 3 200]

/-- C5 witness: the bucket counts of a concrete two-event collection sum to
its length. -/
theorem claim_C5_witness :
    statsTotal (getStatsByMagnitude [mkEvent 1 0, mkEvent 7 0]) =
      [mkEvent 1 0, mkEvent 7 0].length :=
  claim_C5_band_counts_total [mkEvent 1 0, mkEvent 7 0]

/-- C6 witness: even far out-of-range coordinates project into the square. -/
theorem claim_C6_witness :
    0 ≤ (latLngToScreen 200 300).1 ∧ (latLngToScreen 200 300).1 ≤ 100 ∧
      0 ≤ (latLngToScreen 200 300).2 ∧ (latLngToScreen 200 300).2 ≤ 100 :=
  claim_C6_projection_bounds.1 200 300

/-- C8 witness: the maximum over a concrete singleton collection is a
magnitude present in it. -/
theorem claim_C8_witness :
    ∃ m : ℚ, getMaxMagnitude [mkEvent 4 0] = (m : WithBot ℚ) ∧
      m ∈ [mkEvent 4 0].map (fun eq => eq.properties.mag) ∧
      ∀ eq ∈ [mkEvent 4 0], eq.properties.mag ≤ m :=
  claim_C8_aggregate_sentinels_and_values.2.2.1 (mkEvent 4 0) []

/-- C9 witness: a tick after the unmount leaves the fetch count where the
unmount left it. -/
theorem claim_C9_witness :
    (runView ([ViewEvent.tick] ++ ViewEvent.unmount :: [ViewEvent.tick])).fetchCount =
      (runView ([ViewEvent.tick] ++ [ViewEvent.unmount])).fetchCount :=
  claim_C9_interval_and_teardown.2 [ViewEvent.tick] [ViewEvent.tick]
